import Mathlib

/-!
Verification of the CodeSorted sandboxed-execution core.

The development shallowly embeds `src/backend/lambda/python_executor_lambda.py`
(the `lambda_handler` function) and `src/frontend/twosum_solution.py`
(the `twoSum` function).

The handler is effectful Python; we embed it as a pure function from the
request event, an environment oracle describing what the operating system does
(child-process outcome, write/launch faults, memory-sampling result), and the
initial filesystem state, to the returned result together with the final
filesystem state and a trace of the externally visible actions taken
(file writes, process launch, the timeout value handed to `communicate`,
and whether a kill was attempted).
-/

namespace CodeSorted

/-! ## Filesystem model

The handler writes to two hard-coded paths under `/tmp`; we model the
filesystem as an association list from path to file content, where a write
prepends (shadowing any earlier content at the same path) and a read returns
the most recent content.  There is no delete operation because the source
contains none. -/

/-- The hard-coded source-file path `"/tmp/code.py"` from the source. -/
def codePath : String := "/tmp/code.py"

/-- The hard-coded input-file path `"/tmp/input.txt"` from the source. -/
def inputPath : String := "/tmp/input.txt"

/-- Filesystem state: an association list from path to content;
the most recent write for a path shadows earlier ones. -/
abbrev FS := List (String × String)

/-- Write `content` at `path` (Python `open(path, "w"); f.write(content)`). -/
def setFile (fs : FS) (path content : String) : FS := (path, content) :: fs

/-- Read the current content at `path`, `none` if the file does not exist. -/
def getFile (fs : FS) (path : String) : Option String :=
  (fs.find? (fun entry => entry.1 == path)).map (fun entry => entry.2)

/-! ## Request, environment oracle, result -/

/-- The Lambda event: `event.get('code', '')`, `event.get('input', '')`,
`event.get('time_limit_ms', 10000)`.  A `none` field is an absent key.
`time_limit_ms` is an integer, per the interface contract. -/
structure Event where
  code : Option String
  input : Option String
  time_limit_ms : Option ℤ
  deriving Repr, DecidableEq

/-- What the child process does once launched: either it completes before the
enforced timeout with an exit code, captured stdout and stderr, and a measured
wall-clock elapsed time in ms, or `communicate` raises `TimeoutExpired` at some
measured elapsed time, with whatever output the child had produced so far
(which the source drains and discards) and with `killFails` telling whether the
forced `process.kill()` itself raises. -/
inductive ChildOutcome where
  | completed (exitCode : Int) (stdoutS stderrS : String) (elapsedMs : ℕ)
  | timedOut (elapsedMs : ℕ) (drainedOut drainedErr : String) (killFails : Bool)
  deriving Repr, DecidableEq

/-- The environment oracle for one invocation: which of the fallible system
calls fail, what the child process does, and the memory sample (`none` when
sampling resident memory fails, in which case the source falls back to `0`).
`faultMsg` is `str(e)` for the exception raised by a failing write or launch. -/
structure Env where
  writeCodeFails : Bool
  writeInputFails : Bool
  popenFails : Bool
  child : ChildOutcome
  memSample : Option ℕ
  faultMsg : String
  deriving Repr, DecidableEq

/-- The dictionary returned by `lambda_handler`: always exactly these four
fields. -/
structure LambdaResult where
  status : String
  output : String
  execution_time_ms : ℤ
  memory_used_kb : ℕ
  deriving Repr, DecidableEq

/-- Trace of the externally visible actions of one invocation. -/
structure Trace where
  wroteCode : Bool
  wroteInput : Bool
  launched : Bool
  timeoutUsed : Option ℚ
  killAttempted : Bool
  deriving Repr, DecidableEq

/-- The empty trace: nothing written, nothing launched, nothing killed. -/
def noTrace : Trace :=
  { wroteCode := false, wroteInput := false, launched := false,
    timeoutUsed := none, killAttempted := false }

/-- The result built by the outermost `except Exception` handler:
`{"status": "compilation_error", "output": str(e), "execution_time_ms": 0,
"memory_used_kb": 0}`. -/
def setupResult (msg : String) : LambdaResult :=
  { status := "compilation_error", output := msg,
    execution_time_ms := 0, memory_used_kb := 0 }

/-- The diagnostic text of the timeout branch:
`"Execution timed out after {} seconds".format(execution_timeout)`. -/
def timeoutMessage (t : ℚ) : String :=
  "Execution timed out after " ++ toString t ++ " seconds"

/-- Shallow embedding of `lambda_handler` from
`src/backend/lambda/python_executor_lambda.py`.  Control flow mirrors the
source line by line: extract `code`/`input`/`time_limit_ms` with defaults;
short-circuit on empty code; clamp the timeout to
`min(time_limit_ms / 1000, 8)`; write the code file then the input file; run
the child under the clamped timeout; classify by exit code on completion, or
kill (swallowing kill failures) and report the diagnostic on
`TimeoutExpired`; any fault in writing or launching is caught by the
outermost handler and reported as `compilation_error` with `str(e)`. -/
def lambda_handler (event : Event) (env : Env) (fs : FS) :
    LambdaResult × FS × Trace :=
  let code := event.code.getD ""
  let input_data := event.input.getD ""
  let time_limit_ms := event.time_limit_ms.getD 10000
  if code = "" then
    ({ status := "compilation_error", output := "No code provided",
       execution_time_ms := 0, memory_used_kb := 0 }, fs, noTrace)
  else
    let execution_timeout : ℚ := min ((time_limit_ms : ℚ) / 1000) 8
    if env.writeCodeFails then
      (setupResult env.faultMsg, fs, noTrace)
    else
      let fs1 := setFile fs codePath code
      if env.writeInputFails then
        (setupResult env.faultMsg, fs1, { noTrace with wroteCode := true })
      else
        let fs2 := setFile fs1 inputPath input_data
        if env.popenFails then
          (setupResult env.faultMsg, fs2,
           { noTrace with wroteCode := true, wroteInput := true })
        else
          match env.child with
          | ChildOutcome.completed exitCode stdoutS stderrS elapsedMs =>
            let memory_used := env.memSample.getD 0
            if exitCode = 0 then
              ({ status := "success", output := stdoutS,
                 execution_time_ms := (elapsedMs : ℤ),
                 memory_used_kb := memory_used }, fs2,
               { wroteCode := true, wroteInput := true, launched := true,
                 timeoutUsed := some execution_timeout, killAttempted := false })
            else
              ({ status := "runtime_error", output := stderrS,
                 execution_time_ms := (elapsedMs : ℤ),
                 memory_used_kb := memory_used }, fs2,
               { wroteCode := true, wroteInput := true, launched := true,
                 timeoutUsed := some execution_timeout, killAttempted := false })
          | ChildOutcome.timedOut _elapsedMs _drainedOut _drainedErr _killFails =>
            ({ status := "time_limit_exceeded",
               output := timeoutMessage execution_timeout,
               execution_time_ms := time_limit_ms,
               memory_used_kb := 0 }, fs2,
             { wroteCode := true, wroteInput := true, launched := true,
               timeoutUsed := some execution_timeout, killAttempted := true })

/-- The wall-clock elapsed time, in ms, from launch to outcome determination,
as a wall clock would measure it for the given child outcome. -/
def measuredElapsedMs (env : Env) : ℕ :=
  match env.child with
  | ChildOutcome.completed _ _ _ e => e
  | ChildOutcome.timedOut e _ _ _ => e

/-! ## Two concurrent invocations sharing a filesystem

The filesystem steps one invocation performs before supervising the child:
write the source file, write the input file, then launch the child, whose
stdin is bound to the input file and which interprets the source file, so at
launch the child observes the then-current contents of the two hard-coded
paths.  To study two overlapping invocations we run an interleaving of their
step sequences against a shared filesystem and record, for each launch, which
file contents that invocation's child observed. -/

/-- One filesystem-visible step of an invocation. -/
inductive WStep where
  | write (path content : String)
  | launch
  deriving Repr, DecidableEq

/-- The filesystem steps of `lambda_handler` on an event with non-empty code,
in source order: write `code` at `codePath`, write `input` at `inputPath`,
launch the child. -/
def invocationSteps (e : Event) : List WStep :=
  [ WStep.write codePath (e.code.getD "")
  , WStep.write inputPath (e.input.getD "")
  , WStep.launch ]

/-- What a launched child observes: the contents of the source path and of the
input path at the moment of its launch. -/
structure Observation where
  tag : Bool
  codeSeen : Option String
  inputSeen : Option String
  deriving Repr, DecidableEq

/-- Run a tagged interleaving of steps of two invocations (tags `true` and
`false`) against the shared filesystem, returning the final filesystem and
the observation made at each launch, in execution order. -/
def runSched : List (Bool × WStep) → FS → FS × List Observation
  | [], fs => (fs, [])
  | (_, WStep.write p c) :: rest, fs => runSched rest (setFile fs p c)
  | (tag, WStep.launch) :: rest, fs =>
    let r := runSched rest fs
    (r.1, { tag := tag, codeSeen := getFile fs codePath,
            inputSeen := getFile fs inputPath } :: r.2)

/-- The non-overlapping schedule: every step of the first invocation before
any step of the second. -/
def seqSched (e1 e2 : Event) : List (Bool × WStep) :=
  ((invocationSteps e1).map (fun s => (true, s))) ++
    ((invocationSteps e2).map (fun s => (false, s)))

/-! ## The twoSum solution (`src/frontend/twosum_solution.py`)

The Python dict `seen` maps a value to the index at which it was most recently
inserted; we model it as an association list where insertion prepends and
lookup returns the most recent binding. -/

/-- Lookup in the model of the Python dict `seen`: the most recent binding of
key `k`, if any (`seen[k]` guarded by `k in seen`). -/
def lookupA (seen : List (Int × ℕ)) (k : Int) : Option ℕ :=
  match seen with
  | [] => none
  | (v, j) :: rest => if v = k then some j else lookupA rest k

/-- The loop of `twoSum`: `rest` is the part of the list not yet visited, `i`
the index of its head in the original list, `seen` the dict built so far. -/
def twoSumAux (target : Int) : List Int → List (Int × ℕ) → ℕ → List ℕ
  | [], _, _ => []
  | num :: rest, seen, i =>
    match lookupA seen (target - num) with
    | some j => [j, i]
    | none => twoSumAux target rest ((num, i) :: seen) (i + 1)

/-- Shallow embedding of `twoSum` from `src/frontend/twosum_solution.py`. -/
def twoSum (nums : List Int) (target : Int) : List ℕ :=
  twoSumAux target nums [] 0

/-! ## Concrete fixtures used by witnesses and counterexamples -/

/-- A request with non-empty code. -/
def evOK : Event :=
  { code := some "print(1)", input := some "", time_limit_ms := some 5000 }

/-- A request with an absent `code` key. -/
def evEmpty : Event :=
  { code := none, input := some "42", time_limit_ms := some 123 }

/-- A request whose requested limit (20 s) exceeds the 8 s platform ceiling. -/
def evLong : Event :=
  { code := some "while True: pass", input := some "", time_limit_ms := some 20000 }

/-- An environment in which the child exits cleanly with code 0. -/
def envSuccess : Env :=
  { writeCodeFails := false, writeInputFails := false, popenFails := false,
    child := ChildOutcome.completed 0 "1\n" "" 12, memSample := some 30000,
    faultMsg := "" }

/-- An environment in which the child exits with code 1 after writing a
traceback to stderr. -/
def envCrash : Env :=
  { writeCodeFails := false, writeInputFails := false, popenFails := false,
    child := ChildOutcome.completed 1 "" "Traceback: ZeroDivisionError" 15,
    memSample := some 30000, faultMsg := "" }

/-- An environment in which the deadline fires at 8000 ms of wall clock (the
clamped 8 s ceiling for `evLong`) and the subsequent forced kill itself
fails. -/
def envTimeout : Env :=
  { writeCodeFails := false, writeInputFails := false, popenFails := false,
    child := ChildOutcome.timedOut 8000 "partial out" "" true,
    memSample := none, faultMsg := "" }

/-- An environment in which writing the source file raises. -/
def envFault : Env :=
  { writeCodeFails := true, writeInputFails := false, popenFails := false,
    child := ChildOutcome.completed 0 "" "" 0, memSample := none,
    faultMsg := "No space left on device" }

/-- Request A of the interleaving counterexample: same source as B, input
`"A"`. -/
def evA : Event :=
  { code := some "print(input())", input := some "A", time_limit_ms := some 5000 }

/-- Request B of the interleaving counterexample: same source as A, input
`"B"`. -/
def evB : Event :=
  { code := some "print(input())", input := some "B", time_limit_ms := some 5000 }

/-- An interleaving of the steps of invocations A and B in which both write
their files before either launches: A writes, B overwrites (the paths are the
same fixed constants), then both launch. -/
def interleavedSched : List (Bool × WStep) :=
  [ (true, WStep.write codePath "print(input())")
  , (true, WStep.write inputPath "A")
  , (false, WStep.write codePath "print(input())")
  , (false, WStep.write inputPath "B")
  , (true, WStep.launch)
  , (false, WStep.launch) ]

/-! ## Helper lemmas -/

lemma getFile_cons_same (fs : FS) (p c : String) :
    getFile ((p, c) :: fs) p = some c := by
  simp [getFile]

lemma getFile_skip_input (fs : FS) (c : String) :
    getFile ((inputPath, c) :: fs) codePath = getFile fs codePath := by
  simp [getFile, List.find?_cons, show (inputPath == codePath) = false by decide]

lemma getFile_skip_code (fs : FS) (c : String) :
    getFile ((codePath, c) :: fs) inputPath = getFile fs inputPath := by
  simp [getFile, List.find?_cons, show (codePath == inputPath) = false by decide]

/-- Grounding of the step model: on an event with non-empty code and no
faults, the handler transforms the filesystem exactly as running the
invocation step sequence of that event does. -/
lemma lambda_handler_fs_eq_runSched (event : Event) (env : Env) (fs : FS)
    (hcode : event.code.getD "" ≠ "")
    (hw1 : env.writeCodeFails = false) (hw2 : env.writeInputFails = false)
    (hp : env.popenFails = false) :
    (lambda_handler event env fs).2.1 =
      (runSched ((invocationSteps event).map (fun s => (true, s))) fs).1 := by
  cases hchild : env.child with
  | completed ec o e el =>
    by_cases hec : ec = 0 <;>
      simp [lambda_handler, runSched, invocationSteps, hcode, hw1, hw2, hp,
            hchild, hec]
  | timedOut el po pe kf =>
    simp [lambda_handler, runSched, invocationSteps, hcode, hw1, hw2, hp, hchild]

lemma lookupA_mem {k : Int} {j : ℕ} :
    ∀ {seen : List (Int × ℕ)}, lookupA seen k = some j → (k, j) ∈ seen := by
  intro seen
  induction seen with
  | nil => intro h; simp [lookupA] at h
  | cons p rest ih =>
    obtain ⟨v, j1⟩ := p
    intro h
    rw [lookupA] at h
    by_cases hv : v = k
    · rw [if_pos hv] at h
      subst hv
      obtain rfl : j1 = j := Option.some_injective _ h
      exact List.mem_cons_self _ _
    · rw [if_neg hv] at h
      exact List.mem_cons_of_mem _ (ih h)

lemma drop_cons_parts {l : List Int} {i : ℕ} {x : Int} {rest : List Int}
    (h : l.drop i = x :: rest) :
    l.getD i 0 = x ∧ l.drop (i + 1) = rest ∧ i < l.length := by
  have hx : l[i]? = some x := by rw [← List.head?_drop, h]; rfl
  have hlen : i < l.length := by
    by_contra hle
    push_neg at hle
    rw [List.drop_eq_nil_iff.2 hle] at h
    exact List.noConfusion h
  refine ⟨?_, ?_, hlen⟩
  · rw [List.getD_eq_getElem l 0 hlen]
    rw [List.getElem?_eq_getElem hlen] at hx
    exact Option.some_injective _ hx
  · have h2 := List.drop_drop 1 i l
    rw [h] at h2
    simpa using h2.symm

/-- Soundness of the `twoSum` loop: a returned pair `[a, b]` is a pair of
valid indices `a < b` of the original list whose values sum to `target`,
provided every binding of `seen` records a value at an index below `i`. -/
lemma twoSumAux_sound (orig : List Int) (target : Int) :
    ∀ (rest : List Int) (i : ℕ) (seen : List (Int × ℕ)) (a b : ℕ),
      orig.drop i = rest →
      (∀ p ∈ seen, p.2 < i ∧ orig.getD p.2 0 = p.1) →
      twoSumAux target rest seen i = [a, b] →
      a < b ∧ b < orig.length ∧ orig.getD a 0 + orig.getD b 0 = target := by
  intro rest
  induction rest with
  | nil =>
    intro i seen a b hdrop hseen hrun
    simp [twoSumAux] at hrun
  | cons num rest ih =>
    intro i seen a b hdrop hseen hrun
    obtain ⟨hget, hdrop1, hlen⟩ := drop_cons_parts hdrop
    rw [twoSumAux] at hrun
    cases hl : lookupA seen (target - num) with
    | some j =>
      rw [hl] at hrun
      simp only [List.cons.injEq, and_true] at hrun
      obtain ⟨rfl, rfl⟩ := hrun
      obtain ⟨hji, hjval⟩ := hseen _ (lookupA_mem hl)
      refine ⟨hji, hlen, ?_⟩
      rw [hjval, hget]
      ring
    | none =>
      rw [hl] at hrun
      refine ih (i + 1) ((num, i) :: seen) a b hdrop1 ?_ hrun
      intro p hp
      rcases List.mem_cons.1 hp with hh | ht
      · subst hh
        exact ⟨Nat.lt_succ_self i, hget⟩
      · obtain ⟨h1, h2⟩ := hseen p ht
        exact ⟨Nat.lt_succ_of_lt h1, h2⟩

/-- The `twoSum` loop returns either `[]` or a two-element list. -/
lemma twoSumAux_shape (target : Int) :
    ∀ (rest : List Int) (seen : List (Int × ℕ)) (i : ℕ),
      twoSumAux target rest seen i = [] ∨
        ∃ a b, twoSumAux target rest seen i = [a, b] := by
  intro rest
  induction rest with
  | nil => intro seen i; left; rfl
  | cons num rest ih =>
    intro seen i
    rw [twoSumAux]
    cases hl : lookupA seen (target - num) with
    | some j => right; exact ⟨j, i, rfl⟩
    | none => exact ih _ _

/-- Completeness of the `twoSum` loop: if a valid pair exists, the loop does
not return `[]`, provided every already-visited value is a key of `seen` and
no pair inside the visited prefix sums to `target`. -/
lemma twoSumAux_complete (orig : List Int) (target : Int) :
    ∀ (rest : List Int) (i : ℕ) (seen : List (Int × ℕ)),
      orig.drop i = rest →
      (∀ j, j < i → (lookupA seen (orig.getD j 0)).isSome) →
      (∀ a b, a < b → b < i → orig.getD a 0 + orig.getD b 0 ≠ target) →
      (∃ a b, a < b ∧ b < orig.length ∧ orig.getD a 0 + orig.getD b 0 = target) →
      twoSumAux target rest seen i ≠ [] := by
  intro rest
  induction rest with
  | nil =>
    intro i seen hdrop hkeys hnopair hex
    exfalso
    obtain ⟨a, b, hab, hblen, hsum⟩ := hex
    have hle : orig.length ≤ i := List.drop_eq_nil_iff.1 hdrop
    exact hnopair a b hab (lt_of_lt_of_le hblen hle) hsum
  | cons num rest ih =>
    intro i seen hdrop hkeys hnopair hex
    obtain ⟨hget, hdrop1, hlen⟩ := drop_cons_parts hdrop
    rw [twoSumAux]
    cases hl : lookupA seen (target - num) with
    | some j => simp
    | none =>
      refine ih (i + 1) ((num, i) :: seen) hdrop1 ?_ ?_ hex
      · intro j hj
        rcases Nat.lt_succ_iff_lt_or_eq.1 hj with hj1 | hj1
        · have hks := hkeys j hj1
          cases hlk : lookupA seen (orig.getD j 0) with
          | none => rw [hlk] at hks; simp at hks
          | some x =>
            rw [lookupA]
            by_cases hnum : num = orig.getD j 0
            · rw [if_pos hnum]; rfl
            · rw [if_neg hnum, hlk]; rfl
        · subst hj1
          rw [hget, lookupA, if_pos rfl]
          rfl
      · intro a b hab hb hsum
        rcases Nat.lt_succ_iff_lt_or_eq.1 hb with hb1 | hb1
        · exact hnopair a b hab hb1 hsum
        · subst hb1
          have hkey := hkeys a hab
          have hval : orig.getD a 0 = target - num := by
            rw [hget] at hsum
            omega
          rw [hval, hl] at hkey
          simp at hkey

/-! ## Claims -/

/-- C1: for every request with non-empty code whose child completes before the
deadline (no write or launch fault, child outcome `completed`), the status is
determined solely by the exit code: exit code 0 yields `"success"` with
`output` equal to the captured stdout, and any non-zero exit code yields
`"runtime_error"` with `output` equal to the captured stderr; the output is
exactly one of the two streams, never a mix. -/
theorem C1_exit_code_determines_status_and_stream
    (event : Event) (env : Env) (fs : FS)
    (exitCode : Int) (stdoutS stderrS : String) (elapsedMs : ℕ)
    (hcode : event.code.getD "" ≠ "")
    (hw1 : env.writeCodeFails = false) (hw2 : env.writeInputFails = false)
    (hp : env.popenFails = false)
    (hchild : env.child = ChildOutcome.completed exitCode stdoutS stderrS elapsedMs) :
    (exitCode = 0 →
      (lambda_handler event env fs).1.status = "success" ∧
      (lambda_handler event env fs).1.output = stdoutS) ∧
    (exitCode ≠ 0 →
      (lambda_handler event env fs).1.status = "runtime_error" ∧
      (lambda_handler event env fs).1.output = stderrS) := by
  by_cases hec : exitCode = 0 <;>
    simp [lambda_handler, hcode, hw1, hw2, hp, hchild, hec]

/-- Witness for C1, at a clean exit (exit code 0, stdout returned) and at a
crash (exit code 1, stderr returned). -/
theorem C1_witness :
    ((lambda_handler evOK envSuccess []).1.status = "success" ∧
     (lambda_handler evOK envSuccess []).1.output = "1\n") ∧
    ((lambda_handler evOK envCrash []).1.status = "runtime_error" ∧
     (lambda_handler evOK envCrash []).1.output = "Traceback: ZeroDivisionError") := by
  have h1 := C1_exit_code_determines_status_and_stream evOK envSuccess []
    0 "1\n" "" 12 (by decide) rfl rfl rfl rfl
  have h2 := C1_exit_code_determines_status_and_stream evOK envCrash []
    1 "" "Traceback: ZeroDivisionError" 15 (by decide) rfl rfl rfl rfl
  exact ⟨h1.1 rfl, h2.2 (by decide)⟩

/-- C2: for every request whose code field is empty or absent, the handler
returns `"compilation_error"` with both metrics zero, leaves the filesystem
untouched, and performs no write, no launch, and no kill — regardless of the
`input` and `time_limit_ms` fields and of the environment. -/
theorem C2_empty_code_short_circuits
    (event : Event) (env : Env) (fs : FS)
    (hcode : event.code.getD "" = "") :
    (lambda_handler event env fs).1 =
      { status := "compilation_error", output := "No code provided",
        execution_time_ms := 0, memory_used_kb := 0 } ∧
    (lambda_handler event env fs).2.1 = fs ∧
    (lambda_handler event env fs).2.2 = noTrace := by
  simp [lambda_handler, hcode]

/-- Witness for C2 at an event with an absent code key and non-trivial
`input` and `time_limit_ms`. -/
theorem C2_witness :
    (lambda_handler evEmpty envSuccess []).1 =
      { status := "compilation_error", output := "No code provided",
        execution_time_ms := 0, memory_used_kb := 0 } ∧
    (lambda_handler evEmpty envSuccess []).2.1 = [] ∧
    (lambda_handler evEmpty envSuccess []).2.2 = noTrace :=
  C2_empty_code_short_circuits evEmpty envSuccess [] (by decide)

/-- C3: when the deadline expires before the child completes, the handler
attempts to kill the process and returns `"time_limit_exceeded"` whose output
is the diagnostic message naming the enforced limit — for every partial
stdout/stderr the child produced, so never partial program output — and for
both values of `killFails`, so a failing forced termination is swallowed and
the status is unchanged. -/
theorem C3_timeout_kills_and_reports_diagnostic
    (event : Event) (env : Env) (fs : FS)
    (elapsedMs : ℕ) (drainedOut drainedErr : String) (killFails : Bool)
    (hcode : event.code.getD "" ≠ "")
    (hw1 : env.writeCodeFails = false) (hw2 : env.writeInputFails = false)
    (hp : env.popenFails = false)
    (hchild : env.child =
      ChildOutcome.timedOut elapsedMs drainedOut drainedErr killFails) :
    (lambda_handler event env fs).1.status = "time_limit_exceeded" ∧
    (lambda_handler event env fs).1.output =
      timeoutMessage (min (((event.time_limit_ms.getD 10000 : ℤ) : ℚ) / 1000) 8) ∧
    (lambda_handler event env fs).2.2.killAttempted = true := by
  simp [lambda_handler, hcode, hw1, hw2, hp, hchild]

/-- Witness for C3 at a timed-out run whose forced kill itself fails
(`killFails = true`) and whose child had produced partial output. -/
theorem C3_witness :
    (lambda_handler evLong envTimeout []).1.status = "time_limit_exceeded" ∧
    (lambda_handler evLong envTimeout []).1.output =
      timeoutMessage (min (((evLong.time_limit_ms.getD 10000 : ℤ) : ℚ) / 1000) 8) ∧
    (lambda_handler evLong envTimeout []).2.2.killAttempted = true :=
  C3_timeout_kills_and_reports_diagnostic evLong envTimeout []
    8000 "partial out" "" true (by decide) rfl rfl rfl rfl

/-- C4: for every request with non-empty code that reaches supervision, the
timeout handed to the wait on the child equals the requested `time_limit_ms`
converted to seconds and clamped to 8 seconds, and that value never exceeds
8 seconds. -/
theorem C4_effective_timeout_clamped_to_8s
    (event : Event) (env : Env) (fs : FS)
    (hcode : event.code.getD "" ≠ "")
    (hw1 : env.writeCodeFails = false) (hw2 : env.writeInputFails = false)
    (hp : env.popenFails = false) :
    (lambda_handler event env fs).2.2.timeoutUsed =
      some (min (((event.time_limit_ms.getD 10000 : ℤ) : ℚ) / 1000) 8) ∧
    min (((event.time_limit_ms.getD 10000 : ℤ) : ℚ) / 1000) 8 ≤ 8 := by
  refine ⟨?_, min_le_right _ _⟩
  cases hchild : env.child with
  | completed ec o e el =>
    by_cases hec : ec = 0 <;>
      simp [lambda_handler, hcode, hw1, hw2, hp, hchild, hec]
  | timedOut el po pe kf =>
    simp [lambda_handler, hcode, hw1, hw2, hp, hchild]

/-- Witness for C4 at a request asking for 20 s: the enforced timeout is the
clamped value, which is at most 8 s. -/
theorem C4_witness :
    (lambda_handler evLong envTimeout []).2.2.timeoutUsed =
      some (min (((evLong.time_limit_ms.getD 10000 : ℤ) : ℚ) / 1000) 8) ∧
    min (((evLong.time_limit_ms.getD 10000 : ℤ) : ℚ) / 1000) 8 ≤ 8 :=
  C4_effective_timeout_clamped_to_8s evLong envTimeout [] (by decide) rfl rfl rfl

/-- C5: on every event, environment and filesystem, the handler returns a
well-formed result whose status is one of the four external strings (the
embedding is a total function, mirroring the outermost `except` boundary);
and whenever a write or launch fault occurs on a request with non-empty code,
the result is `"compilation_error"` with the textual description of the fault
as output. -/
theorem C5_always_well_formed_faults_downgraded
    (event : Event) (env : Env) (fs : FS) :
    ((lambda_handler event env fs).1.status = "success" ∨
     (lambda_handler event env fs).1.status = "runtime_error" ∨
     (lambda_handler event env fs).1.status = "time_limit_exceeded" ∨
     (lambda_handler event env fs).1.status = "compilation_error") ∧
    (event.code.getD "" ≠ "" →
      (env.writeCodeFails = true ∨ env.writeInputFails = true ∨
        env.popenFails = true) →
      (lambda_handler event env fs).1.status = "compilation_error" ∧
      (lambda_handler event env fs).1.output = env.faultMsg) := by
  obtain ⟨wc, wi, pf, child, mem, msg⟩ := env
  by_cases hcode : event.code.getD "" = "" <;>
    cases wc <;> cases wi <;> cases pf <;> cases child <;>
    simp [lambda_handler, hcode, setupResult] <;>
    rename_i ec _ _ _ <;> by_cases hec : ec = 0 <;> simp [hec]

/-- Witness for C5 at a request whose source-file write raises: the fault is
downgraded to `"compilation_error"` with `str(e)` as output. -/
theorem C5_witness :
    ((lambda_handler evOK envFault []).1.status = "success" ∨
     (lambda_handler evOK envFault []).1.status = "runtime_error" ∨
     (lambda_handler evOK envFault []).1.status = "time_limit_exceeded" ∨
     (lambda_handler evOK envFault []).1.status = "compilation_error") ∧
    ((lambda_handler evOK envFault []).1.status = "compilation_error" ∧
     (lambda_handler evOK envFault []).1.output = "No space left on device") := by
  have h := C5_always_well_formed_faults_downgraded evOK envFault []
  exact ⟨h.1, h.2 (by decide) (Or.inl rfl)⟩

/-- C6 counterexample: at a request asking for 20000 ms whose child is killed
by the clamped 8 s deadline (measured wall clock 8000 ms, equal to the
enforced limit), the returned `execution_time_ms` is 20000, not the measured
elapsed time — refuting the claim that every branch returns the measured
wall-clock time. -/
theorem C6_counterexample :
    (lambda_handler evLong envTimeout []).1.execution_time_ms = 20000 ∧
    measuredElapsedMs envTimeout = 8000 ∧
    (lambda_handler evLong envTimeout []).1.execution_time_ms ≠
      (measuredElapsedMs envTimeout : ℤ) ∧
    ((measuredElapsedMs envTimeout : ℚ) / 1000) =
      min (((evLong.time_limit_ms.getD 10000 : ℤ) : ℚ) / 1000) 8 := by
  refine ⟨by decide, by decide, by decide, ?_⟩
  norm_num [evLong, envTimeout, measuredElapsedMs]

/-- C6 as amended: the returned `execution_time_ms` equals the measured
wall-clock time only on the natural-completion branches; on the timeout
branch it is the requested `time_limit_ms` (not the measured time), and on a
write or launch fault it is 0. -/
theorem C6_execution_time_by_branch
    (event : Event) (env : Env) (fs : FS)
    (hcode : event.code.getD "" ≠ "") :
    (∀ (ec : Int) (o e : String) (el : ℕ),
      env.writeCodeFails = false → env.writeInputFails = false →
      env.popenFails = false →
      env.child = ChildOutcome.completed ec o e el →
      (lambda_handler event env fs).1.execution_time_ms =
        (measuredElapsedMs env : ℤ)) ∧
    (∀ (el : ℕ) (po pe : String) (kf : Bool),
      env.writeCodeFails = false → env.writeInputFails = false →
      env.popenFails = false →
      env.child = ChildOutcome.timedOut el po pe kf →
      (lambda_handler event env fs).1.execution_time_ms =
        event.time_limit_ms.getD 10000) ∧
    ((env.writeCodeFails = true ∨ env.writeInputFails = true ∨
        env.popenFails = true) →
      (lambda_handler event env fs).1.execution_time_ms = 0) := by
  refine ⟨?_, ?_, ?_⟩
  · intro ec o e el hw1 hw2 hp hchild
    by_cases hec : ec = 0 <;>
      simp [lambda_handler, hcode, hw1, hw2, hp, hchild, measuredElapsedMs, hec]
  · intro el po pe kf hw1 hw2 hp hchild
    simp [lambda_handler, hcode, hw1, hw2, hp, hchild]
  · intro hf
    obtain ⟨wc, wi, pf, child, mem, msg⟩ := env
    cases wc <;> cases wi <;> cases pf <;>
      simp [lambda_handler, hcode, setupResult] <;> simp at hf

/-- Witness for C6 as amended: a completed run returns the measured elapsed
time; a timed-out run returns the requested `time_limit_ms`. -/
theorem C6_witness :
    (lambda_handler evOK envSuccess []).1.execution_time_ms =
      (measuredElapsedMs envSuccess : ℤ) ∧
    (lambda_handler evLong envTimeout []).1.execution_time_ms =
      evLong.time_limit_ms.getD 10000 := by
  have h1 := C6_execution_time_by_branch evOK envSuccess [] (by decide)
  have h2 := C6_execution_time_by_branch evLong envTimeout [] (by decide)
  exact ⟨h1.1 0 "1\n" "" 12 rfl rfl rfl rfl,
         h2.2.1 8000 "partial out" "" true rfl rfl rfl rfl⟩

/-- C7 counterexample: `interleavedSched` is a genuine interleaving of the
step sequences of invocations A (input `"A"`) and B (input `"B"`) with
identical source text; running it on a shared, initially empty filesystem
makes the child of invocation A observe input `"B"` — content not derived
from the request of A, whose input is `"A"` — because both invocations use
the same two fixed workspace paths. -/
theorem C7_counterexample :
    ((interleavedSched.filter (fun x => x.1)).map Prod.snd =
      invocationSteps evA) ∧
    ((interleavedSched.filter (fun x => !x.1)).map Prod.snd =
      invocationSteps evB) ∧
    (runSched interleavedSched []).2 =
      [ { tag := true, codeSeen := some "print(input())", inputSeen := some "B" },
        { tag := false, codeSeen := some "print(input())", inputSeen := some "B" } ] ∧
    evA.input = some "A" ∧ ("B" : String) ≠ "A" := by
  decide

/-- C7 as amended: the workspace paths are fixed constants shared by all
invocations, so isolation holds only for non-overlapping invocations: under
the sequential schedule, on any shared filesystem, each child observes
exactly the source and input of its own request. -/
theorem C7_sequential_runs_observe_own_files (e1 e2 : Event) (fs : FS) :
    (runSched (seqSched e1 e2) fs).2 =
      [ { tag := true, codeSeen := some (e1.code.getD ""),
          inputSeen := some (e1.input.getD "") },
        { tag := false, codeSeen := some (e2.code.getD ""),
          inputSeen := some (e2.input.getD "") } ] := by
  simp [seqSched, invocationSteps, runSched, setFile, getFile_cons_same,
        getFile_skip_input, getFile_skip_code]

/-- C8 counterexample: a successful invocation started on an empty filesystem
leaves both workspace files on disk, with the content it wrote, at the moment
it returns — refuting the claim that the workspace files are cleaned up
before the invocation returns. -/
theorem C8_counterexample :
    getFile (lambda_handler evOK envSuccess []).2.1 codePath = some "print(1)" ∧
    getFile (lambda_handler evOK envSuccess []).2.1 inputPath = some "" ∧
    (lambda_handler evOK envSuccess []).1.status = "success" := by
  decide

/-- C8 as amended: no exit path removes the workspace files; on every
invocation with non-empty code whose source-file write succeeds, the source
file (and, when its write succeeds, the input file) is still present, with
the content written by this invocation, when the handler returns, and the
final filesystem extends the initial one (nothing is ever deleted); since no
cleanup is attempted, a cleanup failure trivially cannot change the result. -/
theorem C8_workspace_files_persist
    (event : Event) (env : Env) (fs : FS)
    (hcode : event.code.getD "" ≠ "") (hw1 : env.writeCodeFails = false) :
    getFile (lambda_handler event env fs).2.1 codePath =
      some (event.code.getD "") ∧
    (env.writeInputFails = false →
      getFile (lambda_handler event env fs).2.1 inputPath =
        some (event.input.getD "")) ∧
    (∃ pre : FS, (lambda_handler event env fs).2.1 = pre ++ fs) := by
  obtain ⟨wc, wi, pf, child, mem, msg⟩ := env
  subst hw1
  cases wi with
  | true =>
    refine ⟨?_, by simp, ⟨[(codePath, event.code.getD "")], ?_⟩⟩ <;>
      simp [lambda_handler, hcode, setFile, getFile_cons_same]
  | false =>
    cases pf with
    | true =>
      refine ⟨?_, fun _ => ?_,
        ⟨[(inputPath, event.input.getD ""), (codePath, event.code.getD "")], ?_⟩⟩ <;>
        simp [lambda_handler, hcode, setFile, getFile_cons_same, getFile_skip_input]
    | false =>
      cases child with
      | completed ec o e el =>
        by_cases hec : ec = 0 <;>
          exact ⟨by simp [lambda_handler, hcode, hec, setFile, getFile_cons_same,
                    getFile_skip_input],
                 fun _ => by simp [lambda_handler, hcode, hec, setFile,
                   getFile_cons_same],
                 ⟨[(inputPath, event.input.getD ""), (codePath, event.code.getD "")],
                  by simp [lambda_handler, hcode, hec, setFile]⟩⟩
      | timedOut el po pe kf =>
        exact ⟨by simp [lambda_handler, hcode, setFile, getFile_cons_same,
                  getFile_skip_input],
               fun _ => by simp [lambda_handler, hcode, setFile, getFile_cons_same],
               ⟨[(inputPath, event.input.getD ""), (codePath, event.code.getD "")],
                by simp [lambda_handler, hcode, setFile]⟩⟩

/-- Witness for C8 as amended, at a successful run on an empty filesystem. -/
theorem C8_witness :
    getFile (lambda_handler evOK envSuccess []).2.1 codePath =
      some (evOK.code.getD "") ∧
    getFile (lambda_handler evOK envSuccess []).2.1 inputPath =
      some (evOK.input.getD "") ∧
    (∃ pre : FS, (lambda_handler evOK envSuccess []).2.1 = pre ++ ([] : FS)) := by
  have h := C8_workspace_files_persist evOK envSuccess [] (by decide) rfl
  exact ⟨h.1, h.2.1 rfl, h.2.2⟩

/-- C9: memory accounting is advisory: when sampling fails (`memSample =
none`) the returned `memory_used_kb` is 0, and the status, output and
`execution_time_ms` are identical to what the same invocation returns under
any successful sample `v`. -/
theorem C9_memory_sampling_is_advisory
    (event : Event) (env : Env) (fs : FS) (v : ℕ) :
    (lambda_handler event { env with memSample := none } fs).1.memory_used_kb = 0 ∧
    (lambda_handler event { env with memSample := none } fs).1.status =
      (lambda_handler event { env with memSample := some v } fs).1.status ∧
    (lambda_handler event { env with memSample := none } fs).1.output =
      (lambda_handler event { env with memSample := some v } fs).1.output ∧
    (lambda_handler event { env with memSample := none } fs).1.execution_time_ms =
      (lambda_handler event { env with memSample := some v } fs).1.execution_time_ms := by
  obtain ⟨wc, wi, pf, child, mem, msg⟩ := env
  by_cases hcode : event.code.getD "" = ""
  · simp [lambda_handler, hcode]
  · cases wc with
    | true => simp [lambda_handler, hcode, setupResult]
    | false =>
      cases wi with
      | true => simp [lambda_handler, hcode, setupResult]
      | false =>
        cases pf with
        | true => simp [lambda_handler, hcode, setupResult]
        | false =>
          cases child with
          | completed ec o e el =>
            by_cases hec : ec = 0 <;> simp [lambda_handler, hcode, hec]
          | timedOut el po pe kf => simp [lambda_handler, hcode]

/-- C10: `twoSum` returns a non-empty result exactly when two distinct
indices `i < j` with `nums[i] + nums[j] = target` exist, and a non-empty
result is a pair `[i, j]` of valid indices with `i < j` whose values sum to
`target`. -/
theorem C10_twoSum_returns_valid_pair_iff_exists
    (nums : List Int) (target : Int) :
    (twoSum nums target ≠ [] ↔
      ∃ i j, i < j ∧ j < nums.length ∧
        nums.getD i 0 + nums.getD j 0 = target) ∧
    (twoSum nums target ≠ [] →
      ∃ i j, twoSum nums target = [i, j] ∧ i < j ∧ j < nums.length ∧
        nums.getD i 0 + nums.getD j 0 = target) := by
  have hshape := twoSumAux_shape target nums [] 0
  have hinv : ∀ p ∈ ([] : List (Int × ℕ)), p.2 < 0 ∧ nums.getD p.2 0 = p.1 := by
    intro p hp
    simp at hp
  constructor
  · constructor
    · intro hne
      rcases hshape with h | ⟨a, b, h⟩
      · exact absurd h hne
      · obtain ⟨h1, h2, h3⟩ := twoSumAux_sound nums target nums 0 [] a b rfl hinv h
        exact ⟨a, b, h1, h2, h3⟩
    · intro hex
      exact twoSumAux_complete nums target nums 0 [] rfl
        (by intro j hj; omega)
        (by intro a b hab hb hsum; omega) hex
  · intro hne
    rcases hshape with h | ⟨a, b, h⟩
    · exact absurd h hne
    · obtain ⟨h1, h2, h3⟩ := twoSumAux_sound nums target nums 0 [] a b rfl hinv h
      exact ⟨a, b, h, h1, h2, h3⟩

/-- Witness for C10 at the classic instance `nums = [2,7,11,15]`,
`target = 9`. -/
theorem C10_witness :
    twoSum [2, 7, 11, 15] 9 ≠ [] ∧
    (∃ i j, twoSum [2, 7, 11, 15] 9 = [i, j] ∧ i < j ∧
      j < ([2, 7, 11, 15] : List Int).length ∧
      ([2, 7, 11, 15] : List Int).getD i 0 +
        ([2, 7, 11, 15] : List Int).getD j 0 = 9) := by
  have h := C10_twoSum_returns_valid_pair_iff_exists [2, 7, 11, 15] 9
  exact ⟨by decide, h.2 (by decide)⟩

end CodeSorted
